import Mathlib

/-!
Verification of the KAMIS ingestion engine
(`src/backend/src/services/kamisService.ts`).

The TypeScript source is shallowly embedded below. JavaScript strings are
modelled as Lean `String` with all operations implemented over the underlying
character list (ASCII case folding, as the data in question is ASCII).
JavaScript numbers produced by `parseFloat` are modelled exactly as scaled
decimal integers (`JSNum`); the model covers finite decimal literals, the
only price shapes the claims exercise. JavaScript `Date` values are modelled
as milliseconds since the epoch (`Nat`), with the timezone fixed to UTC and
the built-in date parser restricted to `YYYY-MM-DD` strings from 1970 on;
an unparseable string is `none`, matching an Invalid Date, which the storage
layer rejects. Database state is a record of lists; `findFirst` is `find?`
and `create` appends, with a shared id counter standing in for uuids.
-/

/-! ## JavaScript string primitives -/

/-- ASCII lower-casing of one character (models `toLowerCase` on the ASCII
data this feed carries). -/
def lowerChar (c : Char) : Char :=
  if 'A' ≤ c ∧ c ≤ 'Z' then Char.ofNat (c.toNat + 32) else c

/-- ASCII upper-casing of one character (models `toUpperCase`). -/
def upperChar (c : Char) : Char :=
  if 'a' ≤ c ∧ c ≤ 'z' then Char.ofNat (c.toNat - 32) else c

/-- Models `String.prototype.toLowerCase`. -/
def lowerStr (s : String) : String := ⟨s.data.map lowerChar⟩

/-- Models `String.prototype.toUpperCase`. -/
def upperStr (s : String) : String := ⟨s.data.map upperChar⟩

/-- Whitespace as matched by the regex class `\s` (ASCII subset). -/
def isWS (c : Char) : Bool :=
  c == ' ' || c == '\t' || c == '\n' || c == '\r'

/-- Models `String.prototype.trim`: strip leading and trailing whitespace. -/
def trimStr (s : String) : String :=
  ⟨((s.data.dropWhile isWS).reverse.dropWhile isWS).reverse⟩

/-! ## JavaScript numbers and `parseFloat` -/

/-- A finite JavaScript number as produced by `parseFloat` on a decimal
literal: the value is `mant / 10 ^ fexp`, kept unnormalised. -/
structure JSNum where
  mant : Int
  fexp : Nat
deriving DecidableEq, Repr

/-- Numeric value of a digit run, most significant first. -/
def digitsVal (l : List Char) : Nat :=
  l.foldl (fun a c => a * 10 + (c.toNat - 48)) 0

/-- Strips every `,` from a string; models `.replace(/,/g, '')` at
`kamisService.ts:136`. -/
def stripCommas (s : String) : String :=
  ⟨s.data.filter (fun c => c != ',')⟩

/-- Models `parseFloat` on finite decimal literals: skip leading whitespace,
optional sign, digits with optional fraction and exponent, longest valid
numeric front part, trailing garbage ignored; `none` is `NaN`. Inputs such as
`Infinity` or hex are outside the model. -/
def jsParseFloat (s : String) : Option JSNum :=
  let cs := s.data.dropWhile isWS
  let sign : Int := if cs.head? = some '-' then -1 else 1
  let cs1 := if cs.head? = some '-' || cs.head? = some '+' then cs.tail else cs
  let intDigits := cs1.takeWhile Char.isDigit
  let cs2 := cs1.drop intDigits.length
  let fracDigits :=
    if cs2.head? = some '.' then cs2.tail.takeWhile Char.isDigit else []
  let cs3 := if cs2.head? = some '.' then cs2.tail.drop fracDigits.length else cs2
  if intDigits.isEmpty && fracDigits.isEmpty then none
  else
    let expDigits :=
      if cs3.head? = some 'e' || cs3.head? = some 'E' then
        let cs4 := cs3.tail
        let cs5 :=
          if cs4.head? = some '-' || cs4.head? = some '+' then cs4.tail else cs4
        cs5.takeWhile Char.isDigit
      else []
    let expNeg :=
      cs3.tail.head? = some '-' &&
        (cs3.head? = some 'e' || cs3.head? = some 'E')
    let e : Int := (if expNeg then -1 else 1) * (digitsVal expDigits : Int)
    let m : Int := sign * (digitsVal (intDigits ++ fracDigits) : Int)
    let shift : Int := e - (fracDigits.length : Int)
    if 0 ≤ shift then some ⟨m * (10 : Int) ^ shift.toNat, 0⟩
    else some ⟨m, (-shift).toNat⟩

/-! ## JavaScript dates -/

/-- Gregorian leap-year test. -/
def isLeap (y : Nat) : Bool :=
  y % 4 == 0 && (y % 100 != 0 || y % 400 == 0)

/-- Days in a given month of a given year. -/
def daysInMonth (y mo : Nat) : Nat :=
  if mo == 2 then (if isLeap y then 29 else 28)
  else if mo == 4 || mo == 6 || mo == 9 || mo == 11 then 30
  else 31

/-- Cumulative days before the given month in a non-leap year. -/
def daysBeforeMonth (mo : Nat) : Nat :=
  match mo with
  | 1 => 0 | 2 => 31 | 3 => 59 | 4 => 90 | 5 => 120 | 6 => 151
  | 7 => 181 | 8 => 212 | 9 => 243 | 10 => 273 | 11 => 304 | _ => 334

/-- Leap years strictly before year `y`. -/
def leapsBefore (y : Nat) : Nat :=
  (y - 1) / 4 - (y - 1) / 100 + (y - 1) / 400

/-- Days from 1970-01-01 to the given civil date (`y ≥ 1970`). -/
def daysFromEpoch (y mo d : Nat) : Nat :=
  365 * (y - 1970) + (leapsBefore y - leapsBefore 1970) +
    daysBeforeMonth mo + (if 2 < mo && isLeap y then 1 else 0) + (d - 1)

/-- Models `new Date(string)` restricted to `YYYY-MM-DD` with a valid
calendar date from 1970 on, read as UTC midnight in epoch milliseconds;
everything else is `none` (an Invalid Date). -/
def jsDateParse (s : String) : Option Nat :=
  match s.data with
  | [y1, y2, y3, y4, h1, m1, m2, h2, d1, d2] =>
    if h1 == '-' && h2 == '-' &&
        ([y1, y2, y3, y4, m1, m2, d1, d2].all Char.isDigit) then
      let y := digitsVal [y1, y2, y3, y4]
      let mo := digitsVal [m1, m2]
      let d := digitsVal [d1, d2]
      if 1970 ≤ y && 1 ≤ mo && mo ≤ 12 && 1 ≤ d && d ≤ daysInMonth y mo then
        some (86400000 * daysFromEpoch y mo d)
      else none
    else none
  | _ => none

/-- Models `setHours(0,0,0,0)` on an epoch-millisecond timestamp (UTC). -/
def dayStart (t : Nat) : Nat := 86400000 * (t / 86400000)

/-- Membership of `e` in the calendar-day window of `probe`, i.e. the
`gte: startOfDay, lte: endOfDay` filter at `kamisService.ts:202-213`. -/
def inDayWindow (e probe : Nat) : Bool :=
  decide (dayStart probe ≤ e) && decide (e ≤ dayStart probe + 86399999)

/-! ## Regular expressions of the classifier

The source regexes are alternations of literal words, three of them with an
optional whitespace (`\s?`) in the middle. A pattern is a sequence of parts;
a regex is a list of alternative patterns; `.match` is a search anywhere in
the string. -/

/-- One piece of a source regex alternative: a literal run, or the optional
whitespace `\s?`. -/
inductive PatPart where
  | lit : List Char → PatPart
  | ows : PatPart
deriving DecidableEq

/-- Does the part sequence match an initial segment of `cs`? -/
def partsMatch : List PatPart → List Char → Bool
  | [], _ => true
  | .lit l :: ps, cs => l.isPrefixOf cs && partsMatch ps (cs.drop l.length)
  | .ows :: ps, cs =>
    partsMatch ps cs ||
      (match cs with
       | c :: rest => isWS c && partsMatch ps rest
       | [] => false)

/-- Does the pattern match anywhere in `cs`? -/
def patSearch (p : List PatPart) : List Char → Bool
  | [] => partsMatch p []
  | c :: rest => partsMatch p (c :: rest) || patSearch p rest

/-- Models `lowerName.match(regex)` being truthy. -/
def regexTest (alts : List (List PatPart)) (s : String) : Bool :=
  alts.any (fun a => patSearch a s.data)

/-- A single literal alternative. -/
def lit1 (s : String) : List PatPart := [.lit s.data]

/-- A list of literal alternatives. -/
def lits (l : List String) : List (List PatPart) := l.map lit1

/-! The fourteen rule regexes, in source order (`kamisService.ts:26-39`). -/

def reFarmInputs : List (List PatPart) := lits ["fertilizer"]

def reAnimalFeeds : List (List PatPart) :=
  lits ["sunflower cake", "cotton seed cake", "bran", "pollard"]

def reProcessed : List (List PatPart) := lits ["oil", "cooking fat"]

def reCashCrops : List (List PatPart) :=
  lits ["tea", "coffee", "cotton", "macadamia", "cashew", "korosho", "sisal",
    "pyrethrum", "sunflower"]

def reLivestock : List (List PatPart) :=
  lits ["donkey", "cattle", "cow", "bull", "goat", "sheep", "camel", "pig",
    "livestock", "heifer", "steer", "rabbit"]

def rePoultry : List (List PatPart) :=
  lits ["chicken", "poultry", "turkey", "duck", "geese", "hen"]

def reFisheries : List (List PatPart) :=
  lits ["fish", "tilapia", "omena", "nile perch", "catfish", "mudfish",
    "haplochromis", "trout", "carp", "protopterus", "bass", "labeo",
    "mormyrus", "eel", "synodontis", "alestes", "barbus", "snapper",
    "demersal", "barracuda", "kasumba", "tuna", "mackerel", "shark",
    "sardine", "lobster", "kamba", "prawn", "crab", "kaa", "shrimp",
    "octopus", "pweza", "squid", "ngisi", "oyster", "scavenger", "changu",
    "tangu", "grouper", "grunt", "taamamba", "kora", "mullet", "fumi",
    "threadfin", "bream", "jack", "trevally", "kolekole", "halfbeak",
    "anchov", "herring", "marlin", "pelagic", "rockcode", "tewa"]

def reAnimalProducts : List (List PatPart) :=
  lits ["egg", "milk", "honey", "beef", "mutton", "pork", "meat"]

def reCereals : List (List PatPart) :=
  lits ["maize", "rice", "wheat", "sorghum", "millet", "barley", "oat",
    "cereal"]

def reLegumes : List (List PatPart) :=
  lits ["bean", "pea", "gram", "cowpea", "lentil", "njahi", "dolichos",
    "pulse", "soya"] ++
  [[.lit "ground".data, .ows, .lit "nut".data]] ++
  lits ["peanut", "njugu mawe"]

def reRootsTubers : List (List PatPart) :=
  lits ["potato", "cassava", "yam", "arrow root", "sweet potato", "cocoyam",
    "tuber"]

def reFruits : List (List PatPart) :=
  lits ["banana", "mango", "orange", "pineapple", "pawpaw", "watermelon",
    "avocado", "passion", "lemon", "lime", "tangerine", "guava", "jackfruit",
    "berry", "berries", "melon", "grape", "apple"] ++
  [[.lit "dragon".data, .ows, .lit "fruit".data]] ++
  lits ["coconut"]

def reVegetables : List (List PatPart) :=
  lits ["tomato", "kales", "sukuma", "cabbage", "onion", "spinach", "carrot",
    "pepper", "chilli", "brinjal", "lettuce", "managu", "terere",
    "vegetable", "broccoli", "cauliflower", "cucumber", "kunda", "mrenda"] ++
  [[.lit "spider".data, .ows, .lit "flower".data]] ++
  lits ["saga", "jute", "pumpkin", "butternut", "capsicum", "crotolaria",
    "mito", "miro", "courgette", "okra", "gumbo"] ++
  [[.lit "lady\x27s".data, .ows, .lit "finger".data]]

def reSpices : List (List PatPart) :=
  lits ["ginger", "garlic", "coriander", "dhania", "chives", "turmeric",
    "pepper", "chilies"]

/-- Embeds `categorizeCrop` (`kamisService.ts:23-42`): an ordered chain of
regex tests on the lower-cased name, first hit wins, default `general`. -/
def categorizeCrop (commodityName : String) : String :=
  let lowerName := lowerStr commodityName
  if regexTest reFarmInputs lowerName then "farm_inputs"
  else if regexTest reAnimalFeeds lowerName then "animal_feeds"
  else if regexTest reProcessed lowerName then "processed_products"
  else if regexTest reCashCrops lowerName then "cash_crops"
  else if regexTest reLivestock lowerName then "livestock"
  else if regexTest rePoultry lowerName then "poultry"
  else if regexTest reFisheries lowerName then "fisheries"
  else if regexTest reAnimalProducts lowerName then "animal_products"
  else if regexTest reCereals lowerName then "cereals"
  else if regexTest reLegumes lowerName then "legumes"
  else if regexTest reRootsTubers lowerName then "roots_tubers"
  else if regexTest reFruits lowerName then "fruits"
  else if regexTest reVegetables lowerName then "vegetables"
  else if regexTest reSpices lowerName then "spices_herbs"
  else "general"

def reLitre : List (List PatPart) :=
  lits ["milk", "oil", "juice", "honey", "yoghurt"]

def reTray : List (List PatPart) := lits ["egg"]

def rePiece : List (List PatPart) :=
  lits ["timber", "post", "pole", "pineapple", "watermelon", "coconut",
    "pumpkin", "butternut", "cabbage"]

/-- Embeds `determineUnit` (`kamisService.ts:44-52`). -/
def determineUnit (category commodityName : String) : String :=
  let lowerName := lowerStr commodityName
  if category == "livestock" then "head"
  else if category == "poultry" then "bird"
  else if regexTest reLitre lowerName then "litre"
  else if regexTest reTray lowerName then "tray"
  else if regexTest rePiece lowerName then "piece"
  else "kg"

/-- The classifier rules as the explicit ordered (pattern-set, category)
list the specification describes, in source order. -/
def catRules : List (List (List PatPart) × String) :=
  [(reFarmInputs, "farm_inputs"), (reAnimalFeeds, "animal_feeds"),
   (reProcessed, "processed_products"), (reCashCrops, "cash_crops"),
   (reLivestock, "livestock"), (rePoultry, "poultry"),
   (reFisheries, "fisheries"), (reAnimalProducts, "animal_products"),
   (reCereals, "cereals"), (reLegumes, "legumes"),
   (reRootsTubers, "roots_tubers"), (reFruits, "fruits"),
   (reVegetables, "vegetables"), (reSpices, "spices_herbs")]

/-- First-matching-rule semantics over an ordered rule list, with default
`general`; this is the specification reading of the classifier. -/
def firstMatchCat (rules : List (List (List PatPart) × String))
    (lowerName : String) : String :=
  match rules.find? (fun r => regexTest r.1 lowerName) with
  | some r => r.2
  | none => "general"

/-! ## Reference and fact tables -/

/-- A `crops` row. -/
structure Crop where
  id : Nat
  name : String
  category : String
  unit : String
  is_active : Bool
deriving DecidableEq, Repr

/-- A `regions` row. -/
structure Region where
  id : Nat
  name : String
  code : String
  is_active : Bool
deriving DecidableEq, Repr

/-- A `markets` row. -/
structure Market where
  id : Nat
  name : String
  region_id : Nat
  is_active : Bool
deriving DecidableEq, Repr

/-- A `price_entries` fact row. -/
structure PriceEntry where
  id : Nat
  crop_id : Nat
  region_id : Nat
  market_id : Option Nat
  price : JSNum
  entry_date : Nat
  source : String
  is_verified : Bool
  unit : String
deriving DecidableEq, Repr

/-- The tables touched by the ingestion transaction, plus an id counter
standing in for uuid generation. -/
structure DB where
  crops : List Crop
  regions : List Region
  markets : List Market
  price_entries : List PriceEntry
  nextId : Nat
deriving DecidableEq, Repr

/-- The empty database. -/
def dbEmpty : DB := ⟨[], [], [], [], 0⟩

/-- Case-insensitive name equality, the `mode: 'insensitive'` filter. -/
def ciMatch (a b : String) : Bool := lowerStr a == lowerStr b

/-- Embeds the inline crop resolution (`kamisService.ts:146-161`):
case-insensitive `findFirst`, on miss classify, choose a unit, and create
an active crop. -/
def resolveCrop (db : DB) (cropName : String) : Nat × DB :=
  match db.crops.find? (fun c => ciMatch c.name cropName) with
  | some c => (c.id, db)
  | none =>
    let cat := categorizeCrop cropName
    let u := determineUnit cat cropName
    (db.nextId,
      { db with crops := db.crops ++ [⟨db.nextId, cropName, cat, u, true⟩],
                nextId := db.nextId + 1 })

/-- Derives a region code: uppercase with whitespace replaced by `_`
(`kamisService.ts:175`). -/
def regionCode (s : String) : String :=
  ⟨(upperStr s).data.map (fun c => if isWS c then '_' else c)⟩

/-- Embeds the inline region resolution (`kamisService.ts:163-180`). -/
def resolveRegion (db : DB) (regionName : String) : Nat × DB :=
  match db.regions.find? (fun r => ciMatch r.name regionName) with
  | some r => (r.id, db)
  | none =>
    (db.nextId,
      { db with
          regions := db.regions ++
            [⟨db.nextId, regionName, regionCode regionName, true⟩],
          nextId := db.nextId + 1 })

/-- Embeds the inline market resolution (`kamisService.ts:182-200`): an
empty name resolves to no market; otherwise a case-insensitive lookup
scoped to the region, creating on miss. -/
def resolveMarket (db : DB) (marketName : String) (regionId : Nat) :
    Option Nat × DB :=
  if marketName == "" then (none, db)
  else
    match db.markets.find?
        (fun m => ciMatch m.name marketName && m.region_id == regionId) with
    | some m => (some m.id, db)
    | none =>
      (some db.nextId,
        { db with
            markets := db.markets ++ [⟨db.nextId, marketName, regionId, true⟩],
            nextId := db.nextId + 1 })

/-! ## Row parsing and field extraction -/

/-- One parsed input row: ordered (raw header, raw value) pairs, as the
csv parser with `columns: true` produces (values are strings; spreadsheet
cells are modelled stringified). -/
abbrev Row := List (String × String)

/-- JavaScript object assignment `obj[k] = v`: overwrite an existing key,
else append. -/
def setKey (m : List (String × String)) (k v : String) :
    List (String × String) :=
  if m.any (fun p => p.1 == k) then
    m.map (fun p => if p.1 == k then (k, v) else p)
  else m ++ [(k, v)]

/-- The key-normalisation loop at `kamisService.ts:126-129`: every key is
lower-cased and trimmed, later duplicates overwriting earlier ones. -/
def normalizeRow (rawRow : Row) : Row :=
  rawRow.foldl (fun m p => setKey m (trimStr (lowerStr p.1)) p.2) []

/-- Field read `row[k]` on the normalised object. -/
def getField (nrow : Row) (k : String) : Option String :=
  (nrow.find? (fun p => p.1 == k)).map (fun p => p.2)

/-- A JavaScript `||` chain over field reads ending in `''`: the first
truthy (present and non-empty) value wins. -/
def jsOrChain (nrow : Row) : List String → String
  | [] => ""
  | k :: ks =>
    match getField nrow k with
    | some v => if v == "" then jsOrChain nrow ks else v
    | none => jsOrChain nrow ks

/-- A JavaScript `||` chain whose last resort is not a field (the date
default): `none` means every field was absent or empty. -/
def jsOrOpt (nrow : Row) : List String → Option String
  | [] => none
  | k :: ks =>
    match getField nrow k with
    | some v => if v == "" then jsOrOpt nrow ks else some v
    | none => jsOrOpt nrow ks

/-- A JavaScript `??` chain over field reads: first present value wins,
empty strings included. -/
def jsNullishChain (nrow : Row) : List String → Option String
  | [] => none
  | k :: ks =>
    match getField nrow k with
    | some v => some v
    | none => jsNullishChain nrow ks

/-- Crop-name extraction (`kamisService.ts:131`). -/
def cropNameOf (nrow : Row) : String :=
  trimStr (jsOrChain nrow ["crop", "crop_name", "commodity", "crop name",
    "productname"])

/-- Region-name extraction (`kamisService.ts:132`). -/
def regionNameOf (nrow : Row) : String :=
  trimStr (jsOrChain nrow ["region", "region_name", "county", "district"])

/-- Market-name extraction (`kamisService.ts:133`). -/
def marketNameOf (nrow : Row) : String :=
  trimStr (jsOrChain nrow ["market", "market_name", "market name"])

/-- Price extraction (`kamisService.ts:135-136`): nullish alias chain,
`String(...)` (absent becomes the string `undefined`), commas stripped,
then `parseFloat`; `none` is `NaN`. -/
def priceValOf (nrow : Row) : Option JSNum :=
  jsParseFloat (stripCommas
    (match jsNullishChain nrow ["price", "unit price", "wholesale",
        "retail"] with
     | some s => s
     | none => "undefined"))

/-- Date-field extraction (`kamisService.ts:138`): `entry_date || date ||
date || new Date()`; `none` means the current time is used. -/
def dateFieldOf (nrow : Row) : Option String :=
  jsOrOpt nrow ["entry_date", "date", "date"]

/-- The value of `new Date(dateRaw)` at `kamisService.ts:139`: the current
time when the field fell through to `new Date()`, else the parse of the
string, `none` being an Invalid Date. -/
def entryDateOf (now : Nat) (nrow : Row) : Option Nat :=
  match dateFieldOf nrow with
  | none => some now
  | some s => jsDateParse s

/-! ## Per-row processing -/

/-- How one row was accounted: `inserted`, `skipped`, or `errors`. -/
inductive RowOutcome where
  | ins
  | skip
  | err
deriving DecidableEq, Repr

/-- The dedup filter of `kamisService.ts:205-216`: same crop, region and
market (an absent market matching only absent), entry date within the
probe's calendar day. -/
def dupPred (cropId regionId : Nat) (marketId : Option Nat) (d : Nat)
    (e : PriceEntry) : Bool :=
  e.crop_id == cropId && e.region_id == regionId &&
    e.market_id == marketId && inDayWindow e.entry_date d

/-- The tail of the row body after crop resolution: region and market
resolution, then the date-dependent dedup check and insert
(`kamisService.ts:163-234`). An Invalid Date reaching the dedup query makes
the storage layer raise, which the per-row catch (`kamisService.ts:236-239`)
converts to an `err` outcome; the reference rows created earlier in the row
keep existing, since the per-row catch does not undo statements. -/
def processRowAfterCrop (regionName marketName : String) (p : JSNum)
    (entryDate : Option Nat) (cropId : Nat) (db1 : DB) : RowOutcome × DB :=
  let rr := resolveRegion db1 regionName
  let rm := resolveMarket rr.2 marketName rr.1
  match entryDate with
  | none => (.err, rm.2)
  | some d =>
    if (rm.2.price_entries.find? (dupPred cropId rr.1 rm.1 d)).isSome then
      (.skip, rm.2)
    else
      (.ins,
        { rm.2 with
            price_entries := rm.2.price_entries ++
              [⟨rm.2.nextId, cropId, rr.1, rm.1, p, d, "kamis", true, "kg"⟩],
            nextId := rm.2.nextId + 1 })

/-- Embeds one iteration of the row loop (`kamisService.ts:124-240`):
normalise keys, extract fields, validate crop, region and price, then
resolve and insert behind the dedup guard. The source tests the three
validation conditions in a single `if`; they are split here in the same
order with identical semantics, as none has side effects. -/
def processRow (now : Nat) (db : DB) (rawRow : Row) : RowOutcome × DB :=
  let nrow := normalizeRow rawRow
  let cropName := cropNameOf nrow
  let regionName := regionNameOf nrow
  let marketName := marketNameOf nrow
  let priceVal := priceValOf nrow
  let entryDate := entryDateOf now nrow
  if cropName == "" || regionName == "" then (.skip, db)
  else
    match priceVal with
    | none => (.skip, db)
    | some p =>
      let rc := resolveCrop db cropName
      processRowAfterCrop regionName marketName p entryDate rc.1 rc.2

/-- The aggregate the batch returns (`kamisService.ts:242-247`). -/
structure BatchResult where
  inserted : Nat
  skipped : Nat
  errors : Nat
  total_rows : Nat
deriving DecidableEq, Repr

/-- Account one row outcome into the aggregate. -/
def bump (o : RowOutcome) (b : BatchResult) : BatchResult :=
  match o with
  | .ins => ⟨b.inserted + 1, b.skipped, b.errors, b.total_rows + 1⟩
  | .skip => ⟨b.inserted, b.skipped + 1, b.errors, b.total_rows + 1⟩
  | .err => ⟨b.inserted, b.skipped, b.errors + 1, b.total_rows + 1⟩

/-- Embeds the transaction body of `processKamisFile`
(`kamisService.ts:119-250`): the parsed rows processed strictly in order,
each accounted exactly once, with the final state of the shared tables. -/
def processRows (now : Nat) (rows : List Row) (db : DB) :
    BatchResult × DB :=
  match rows with
  | [] => (⟨0, 0, 0, 0⟩, db)
  | r :: rest =>
    let step := processRow now db r
    let restRes := processRows now rest step.2
    (bump step.1 restRes.1, restRes.2)

/-! ## The sync run logger and the top-level entrypoint -/

/-- A `kamis_sync_logs` row. -/
structure SyncLog where
  id : Nat
  status : String
  records_processed : Nat
  records_inserted : Nat
  records_updated : Nat
  error_message : Option String
  started_at : Nat
  completed_at : Option Nat
deriving DecidableEq, Repr

/-- Database plus the sync log table, the state `syncKamisData` touches. -/
structure SysState where
  db : DB
  sync_logs : List SyncLog
  nextLogId : Nat
deriving DecidableEq, Repr

/-- Embeds `startSyncLog` (`kamisService.ts:254-263`). -/
def startSyncLog (now : Nat) (st : SysState) : Nat × SysState :=
  (st.nextLogId,
    { st with
        sync_logs := st.sync_logs ++
          [⟨st.nextLogId, "running", 0, 0, 0, none, now, none⟩],
        nextLogId := st.nextLogId + 1 })

/-- The `errorMessage || null` coercion at `kamisService.ts:273`: an absent
or empty message is stored as null. -/
def jsStrOrNull (m : Option String) : Option String :=
  match m with
  | some s => if s == "" then none else some s
  | none => none

/-- Embeds `updateSyncLog` (`kamisService.ts:265-277`). -/
def updateSyncLog (st : SysState) (id processed inserted updated : Nat)
    (status : String) (errorMessage : Option String) (now : Nat) : SysState :=
  { st with
      sync_logs := st.sync_logs.map (fun l =>
        if l.id == id then
          { l with
              records_processed := processed,
              records_inserted := inserted,
              records_updated := updated,
              status := status,
              error_message := jsStrOrNull errorMessage,
              completed_at := some now }
        else l) }

/-- The environment one top-level sync invocation runs in: either the file
parses into rows and the transaction commits, or one of the fatal paths is
taken — missing scraper output, a parse failure, or a transaction-level
fault (timeout or unrecoverable storage error). A transaction fault rolls
the whole batch back, so the database is left untouched. -/
inductive RunEnv where
  | ok (rows : List Row)
  | noFile
  | parseFail (msg : String)
  | txFail (msg : String)

/-- What `syncKamisData` returns on success (`kamisService.ts:82-85`). -/
structure SyncReturn where
  records_synced : Nat
  details : BatchResult
deriving DecidableEq, Repr

/-- Embeds `syncKamisData` (`kamisService.ts:55-92`): open a running sync
log; on success run the batch, finalize the log as `completed` and return
the aggregate; on any raised error finalize the log as `failed` with the
error message (coerced through `|| null`) and rethrow, returning no
aggregate. On the transaction-fault path the rolled-back batch leaves the
price tables unchanged and its counts are discarded with the exception. -/
def syncKamisData (env : RunEnv) (now : Nat) (st : SysState) :
    Except String SyncReturn × SysState :=
  let s1 := startSyncLog now st
  match env with
  | .ok rows =>
    let pr := processRows now rows s1.2.db
    (.ok ⟨pr.1.inserted, pr.1⟩,
      updateSyncLog { s1.2 with db := pr.2 } s1.1 pr.1.total_rows
        pr.1.inserted 0 "completed" none now)
  | .noFile =>
    (.error "Scraper finished but no output file found",
      updateSyncLog s1.2 s1.1 0 0 0 "failed"
        (some "Scraper finished but no output file found") now)
  | .parseFail m =>
    (.error ("Failed to parse file: " ++ m),
      updateSyncLog s1.2 s1.1 0 0 0 "failed"
        (some ("Failed to parse file: " ++ m)) now)
  | .txFail m =>
    (.error m, updateSyncLog s1.2 s1.1 0 0 0 "failed" (some m) now)

/-! ## Concurrent-batch interference on crop creation

The source resolves a crop with `findFirst` then `create` and no handler
around the create (`kamisService.ts:146-161`); the schema has a unique
index on `crops.name`. When a concurrent batch creates the same crop
between the lookup and the create, the create raises a unique-constraint
violation, which nothing intercepts before the per-row catch at
`kamisService.ts:236-239`. The variant below embeds exactly that run: the
lookup misses and the create raises. -/

/-- Crop resolution in the interfered run: the miss path raises the
driver's unique-constraint error instead of returning a row. -/
def resolveCropRace (db : DB) (cropName : String) : Except String (Nat × DB) :=
  match db.crops.find? (fun c => ciMatch c.name cropName) with
  | some c => .ok (c.id, db)
  | none => .error "Unique constraint failed on the fields: (name)"

/-- The row body under crop-create interference: identical to `processRow`
except that a raising crop create aborts the row, the per-row catch counts
it in `errors`, and no re-fetch is attempted (none exists in the source). -/
def processRowCropRace (now : Nat) (db : DB) (rawRow : Row) :
    RowOutcome × DB :=
  let nrow := normalizeRow rawRow
  let cropName := cropNameOf nrow
  let regionName := regionNameOf nrow
  let marketName := marketNameOf nrow
  let priceVal := priceValOf nrow
  let entryDate := entryDateOf now nrow
  if cropName == "" || regionName == "" then (.skip, db)
  else
    match priceVal with
    | none => (.skip, db)
    | some p =>
      match resolveCropRace db cropName with
      | .error _ => (.err, db)
      | .ok rc =>
        processRowAfterCrop regionName marketName p entryDate rc.1 rc.2

/-! ## Derived definitions used by the verification -/

/-- First-match rule evaluation written as a fold, the shape the proofs
use to relate the source if-chain to the ordered rule list. -/
def ruleFold : List (List (List PatPart) × String) → String → String
  | [], _ => "general"
  | r :: rs, s => if regexTest r.1 s then r.2 else ruleFold rs s

/-- The outcome a settled row gets on re-processing: an error row errors
again, anything else is skipped. -/
def resettle (o : RowOutcome) : RowOutcome :=
  match o with
  | .err => .err
  | _ => .skip

/-- The constants stamped on every fact row the batch writes. -/
def entryOk (e : PriceEntry) : Bool :=
  e.unit == "kg" && e.source == "kamis" && e.is_verified

/-- The classification invariant of every crop row the batch creates: the
category comes from the classifier and the unit from `determineUnit`. -/
def cropOk (c : Crop) : Bool :=
  c.category == categorizeCrop c.name &&
    c.unit == determineUnit (categorizeCrop c.name) c.name

/-- Relation `DB.Ext db db'` : state `db'` extends `db` by appended rows only. -/
structure DB.Ext (db db' : DB) : Prop where
  crops : ∃ l, db'.crops = db.crops ++ l
  regions : ∃ l, db'.regions = db.regions ++ l
  markets : ∃ l, db'.markets = db.markets ++ l
  entries : ∃ l, db'.price_entries = db.price_entries ++ l

/-- The empty system state. -/
def sysEmpty : SysState := ⟨dbEmpty, [], 0⟩

/-- The first row of the specification scenario in §8. -/
def rowMaize1 : Row :=
  [("crop", "Maize"), ("region", "Central Kenya"), ("price", "45.50"),
   ("date", "2024-01-10")]

/-- The second row of the specification scenario in §8. -/
def rowMaize2 : Row :=
  [("crop", "Maize"), ("region", "Central Kenya"), ("price", "46.00"),
   ("date", "2024-01-10")]

/-- A valid row whose date field is missing entirely. -/
def rowNoDate : Row :=
  [("crop", "Maize"), ("region", "Central"), ("price", "45.50")]

/-- A valid row whose date string parses to an Invalid Date. -/
def rowBadDate : Row :=
  [("crop", "Maize"), ("region", "Central"), ("price", "45.50"),
   ("date", "not-a-date")]

/-- A row whose price is zero, hence numeric but not strictly positive. -/
def rowPriceZero : Row :=
  [("crop", "Maize"), ("region", "Central"), ("price", "0"),
   ("date", "2024-01-10")]

/-- A row missing its crop name. -/
def rowNoCrop : Row :=
  [("region", "Central"), ("price", "45.50"), ("date", "2024-01-10")]

/-! ## Basic list lemmas -/

/-- A successful `find?` is preserved by appending rows behind it. -/
theorem find_append_some {α : Type} (p : α → Bool) (l m : List α) (a : α)
    (h : l.find? p = some a) : (l ++ m).find? p = some a := by
  rw [List.find?_append, h]; rfl

/-- A failed `find?` over the front defers to the appended rows. -/
theorem find_append_none {α : Type} (p : α → Bool) (l m : List α)
    (h : l.find? p = none) : (l ++ m).find? p = m.find? p := by
  rw [List.find?_append, h]; rfl

/-- Appending rows cannot make a successful `find?` fail. -/
theorem find_isSome_append {α : Type} (p : α → Bool) (l m : List α)
    (h : (l.find? p).isSome = true) : ((l ++ m).find? p).isSome = true := by
  cases hl : l.find? p with
  | some a => rw [find_append_some p l m a hl]; rfl
  | none => rw [hl] at h; cases h

/-- A list containing a hit right after a missing front has a successful
`find?`. -/
theorem find_append_cons_isSome {α : Type} (p : α → Bool) (l m : List α)
    (a : α) (h : p a = true) : ((l ++ a :: m).find? p).isSome = true := by
  cases hl : l.find? p with
  | some b => rw [find_append_some p l (a :: m) b hl]; rfl
  | none => rw [find_append_none p l (a :: m) hl, List.find?, h]; rfl

/-! ## Growth of the shared tables

Within one transaction every statement only appends rows; the relation
below captures that, and is what makes lookups stable across the batch. -/

/-- Extension is reflexive. -/
theorem ext_refl (db : DB) : DB.Ext db db :=
  ⟨⟨[], by simp⟩, ⟨[], by simp⟩, ⟨[], by simp⟩, ⟨[], by simp⟩⟩

/-- Extension is transitive. -/
theorem ext_trans {a b c : DB} (h1 : DB.Ext a b) (h2 : DB.Ext b c) :
    DB.Ext a c := by
  obtain ⟨⟨l1, e1⟩, ⟨l2, e2⟩, ⟨l3, e3⟩, ⟨l4, e4⟩⟩ := h1
  obtain ⟨⟨m1, f1⟩, ⟨m2, f2⟩, ⟨m3, f3⟩, ⟨m4, f4⟩⟩ := h2
  exact ⟨⟨l1 ++ m1, by rw [f1, e1, List.append_assoc]⟩,
         ⟨l2 ++ m2, by rw [f2, e2, List.append_assoc]⟩,
         ⟨l3 ++ m3, by rw [f3, e3, List.append_assoc]⟩,
         ⟨l4 ++ m4, by rw [f4, e4, List.append_assoc]⟩⟩

/-- Crop resolution only appends. -/
theorem resolveCrop_ext (db : DB) (n : String) :
    DB.Ext db (resolveCrop db n).2 := by
  unfold resolveCrop
  cases h : db.crops.find? (fun c => ciMatch c.name n) with
  | some c => exact ext_refl db
  | none =>
    exact ⟨⟨_, rfl⟩, ⟨[], by simp⟩, ⟨[], by simp⟩, ⟨[], by simp⟩⟩

/-- Region resolution only appends. -/
theorem resolveRegion_ext (db : DB) (n : String) :
    DB.Ext db (resolveRegion db n).2 := by
  unfold resolveRegion
  cases h : db.regions.find? (fun r => ciMatch r.name n) with
  | some r => exact ext_refl db
  | none =>
    exact ⟨⟨[], by simp⟩, ⟨_, rfl⟩, ⟨[], by simp⟩, ⟨[], by simp⟩⟩

/-- Market resolution only appends. -/
theorem resolveMarket_ext (db : DB) (n : String) (rid : Nat) :
    DB.Ext db (resolveMarket db n rid).2 := by
  unfold resolveMarket
  by_cases hn : (n == "") = true
  · simp only [hn, if_pos rfl]
    exact ext_refl db
  · simp only [Bool.not_eq_true] at hn
    simp only [hn, Bool.false_eq_true, if_false]
    cases h : db.markets.find?
        (fun m => ciMatch m.name n && m.region_id == rid) with
    | some m => exact ext_refl db
    | none =>
      exact ⟨⟨[], by simp⟩, ⟨[], by simp⟩, ⟨_, rfl⟩, ⟨[], by simp⟩⟩

/-- Crop resolution never touches the fact table. -/
theorem resolveCrop_entries (db : DB) (n : String) :
    (resolveCrop db n).2.price_entries = db.price_entries := by
  unfold resolveCrop
  cases h : db.crops.find? (fun c => ciMatch c.name n) <;> rfl

/-- Region resolution never touches the fact table. -/
theorem resolveRegion_entries (db : DB) (n : String) :
    (resolveRegion db n).2.price_entries = db.price_entries := by
  unfold resolveRegion
  cases h : db.regions.find? (fun r => ciMatch r.name n) <;> rfl

/-- Market resolution never touches the fact table. -/
theorem resolveMarket_entries (db : DB) (n : String) (rid : Nat) :
    (resolveMarket db n rid).2.price_entries = db.price_entries := by
  unfold resolveMarket
  by_cases hn : (n == "") = true
  · simp [hn]
  · simp only [Bool.not_eq_true] at hn
    simp only [hn, Bool.false_eq_true, if_false]
    cases h : db.markets.find?
        (fun m => ciMatch m.name n && m.region_id == rid) <;> rfl

/-- Region resolution never touches the crop table. -/
theorem resolveRegion_crops (db : DB) (n : String) :
    (resolveRegion db n).2.crops = db.crops := by
  unfold resolveRegion
  cases h : db.regions.find? (fun r => ciMatch r.name n) <;> rfl

/-- Market resolution never touches the crop table. -/
theorem resolveMarket_crops (db : DB) (n : String) (rid : Nat) :
    (resolveMarket db n rid).2.crops = db.crops := by
  unfold resolveMarket
  by_cases hn : (n == "") = true
  · simp [hn]
  · simp only [Bool.not_eq_true] at hn
    simp only [hn, Bool.false_eq_true, if_false]
    cases h : db.markets.find?
        (fun m => ciMatch m.name n && m.region_id == rid) <;> rfl

/-- The row tail after crop resolution only appends. -/
theorem afterCrop_ext (rn mn : String) (p : JSNum) (ed : Option Nat)
    (cid : Nat) (db1 : DB) :
    DB.Ext db1 (processRowAfterCrop rn mn p ed cid db1).2 := by
  unfold processRowAfterCrop
  have h1 := resolveRegion_ext db1 rn
  have h2 := resolveMarket_ext (resolveRegion db1 rn).2 mn (resolveRegion db1 rn).1
  have h12 := ext_trans h1 h2
  cases ed with
  | none => exact h12
  | some d =>
    by_cases hdup : ((resolveMarket (resolveRegion db1 rn).2 mn
        (resolveRegion db1 rn).1).2.price_entries.find?
        (dupPred cid (resolveRegion db1 rn).1
          (resolveMarket (resolveRegion db1 rn).2 mn
            (resolveRegion db1 rn).1).1 d)).isSome = true
    · simp only [hdup, if_pos rfl]
      exact h12
    · simp only [Bool.not_eq_true] at hdup
      simp only [hdup, Bool.false_eq_true, if_false]
      exact ext_trans h12
        ⟨⟨[], by simp⟩, ⟨[], by simp⟩, ⟨[], by simp⟩, ⟨_, rfl⟩⟩

/-- One row only appends to the shared tables. -/
theorem processRow_ext (now : Nat) (db : DB) (row : Row) :
    DB.Ext db (processRow now db row).2 := by
  unfold processRow
  by_cases hv : (cropNameOf (normalizeRow row) == "" ||
      regionNameOf (normalizeRow row) == "") = true
  · simp only [hv, if_pos rfl]
    exact ext_refl db
  · simp only [Bool.not_eq_true] at hv
    simp only [hv, Bool.false_eq_true, if_false]
    cases hp : priceValOf (normalizeRow row) with
    | none => exact ext_refl db
    | some p =>
      exact ext_trans (resolveCrop_ext db (cropNameOf (normalizeRow row)))
        (afterCrop_ext _ _ p _ _ _)

/-- A whole batch only appends to the shared tables. -/
theorem processRows_ext (now : Nat) (rows : List Row) (db : DB) :
    DB.Ext db (processRows now rows db).2 := by
  induction rows generalizing db with
  | nil => exact ext_refl db
  | cons r rest ih =>
    exact ext_trans (processRow_ext now db r) (ih (processRow now db r).2)

/-! ## Stability of resolution under table growth

A lookup that hit keeps hitting the same row after appends, and a name
created by this row is found again (first behind the unchanged miss
region) in any later extension — so re-running a row against a grown
state resolves the very same identities. -/

/-- Crop resolution against any extension of the row's post-state returns
the same id and creates nothing. -/
theorem resolveCrop_stable (db db₂ : DB) (n : String)
    (hx : DB.Ext (resolveCrop db n).2 db₂) :
    resolveCrop db₂ n = ((resolveCrop db n).1, db₂) := by
  unfold resolveCrop at hx ⊢
  cases h : db.crops.find? (fun c => ciMatch c.name n) with
  | some c =>
    rw [h] at hx
    obtain ⟨l, hl⟩ := hx.crops
    have hf : db₂.crops.find? (fun c => ciMatch c.name n) = some c := by
      rw [hl]; exact find_append_some _ _ _ _ h
    rw [hf]
  | none =>
    rw [h] at hx
    obtain ⟨l, hl⟩ := hx.crops
    have hf : db₂.crops.find? (fun c => ciMatch c.name n) =
        some ⟨db.nextId, n, categorizeCrop n,
          determineUnit (categorizeCrop n) n, true⟩ := by
      rw [hl, List.append_assoc, find_append_none _ _ _ h]
      simp [List.find?, ciMatch]
    rw [hf]

/-- Region resolution against any extension of the row's post-state
returns the same id and creates nothing. -/
theorem resolveRegion_stable (db db₂ : DB) (n : String)
    (hx : DB.Ext (resolveRegion db n).2 db₂) :
    resolveRegion db₂ n = ((resolveRegion db n).1, db₂) := by
  unfold resolveRegion at hx ⊢
  cases h : db.regions.find? (fun r => ciMatch r.name n) with
  | some r =>
    rw [h] at hx
    obtain ⟨l, hl⟩ := hx.regions
    have hf : db₂.regions.find? (fun r => ciMatch r.name n) = some r := by
      rw [hl]; exact find_append_some _ _ _ _ h
    rw [hf]
  | none =>
    rw [h] at hx
    obtain ⟨l, hl⟩ := hx.regions
    have hf : db₂.regions.find? (fun r => ciMatch r.name n) =
        some ⟨db.nextId, n, regionCode n, true⟩ := by
      rw [hl, List.append_assoc, find_append_none _ _ _ h]
      simp [List.find?, ciMatch]
    rw [hf]

/-- Market resolution against any extension of the row's post-state
returns the same id and creates nothing. -/
theorem resolveMarket_stable (db db₂ : DB) (n : String) (rid : Nat)
    (hx : DB.Ext (resolveMarket db n rid).2 db₂) :
    resolveMarket db₂ n rid = ((resolveMarket db n rid).1, db₂) := by
  unfold resolveMarket at hx ⊢
  by_cases hn : (n == "") = true
  · simp [hn]
  · simp only [Bool.not_eq_true] at hn
    simp only [hn, Bool.false_eq_true, if_false] at hx ⊢
    cases h : db.markets.find?
        (fun m => ciMatch m.name n && m.region_id == rid) with
    | some m =>
      rw [h] at hx
      obtain ⟨l, hl⟩ := hx.markets
      have hf : db₂.markets.find?
          (fun m => ciMatch m.name n && m.region_id == rid) = some m := by
        rw [hl]; exact find_append_some _ _ _ _ h
      rw [hf]
    | none =>
      rw [h] at hx
      obtain ⟨l, hl⟩ := hx.markets
      have hf : db₂.markets.find?
          (fun m => ciMatch m.name n && m.region_id == rid) =
          some ⟨db.nextId, n, rid, true⟩ := by
        rw [hl, List.append_assoc, find_append_none _ _ _ h]
        simp [List.find?, ciMatch]
      rw [hf]

/-- The inserted fact matches its own dedup probe. -/
theorem dupPred_self (cid rid : Nat) (mid : Option Nat) (d i : Nat)
    (p : JSNum) :
    dupPred cid rid mid d ⟨i, cid, rid, mid, p, d, "kamis", true, "kg"⟩
      = true := by
  simp [dupPred, inDayWindow, dayStart]
  omega

/-- The row tail only appends, measured from the region-resolved state. -/
theorem afterCrop_ext_fromMarket (rn mn : String) (p : JSNum)
    (ed : Option Nat) (cid : Nat) (db1 : DB) :
    DB.Ext (resolveMarket (resolveRegion db1 rn).2 mn
        (resolveRegion db1 rn).1).2
      (processRowAfterCrop rn mn p ed cid db1).2 := by
  simp only [processRowAfterCrop]
  cases ed with
  | none => exact ext_refl _
  | some d =>
    by_cases hdup : ((resolveMarket (resolveRegion db1 rn).2 mn
        (resolveRegion db1 rn).1).2.price_entries.find?
        (dupPred cid (resolveRegion db1 rn).1
          (resolveMarket (resolveRegion db1 rn).2 mn
            (resolveRegion db1 rn).1).1 d)).isSome = true
    · simp only [hdup, if_pos rfl]
      exact ext_refl _
    · simp only [Bool.not_eq_true] at hdup
      simp only [hdup, Bool.false_eq_true, if_false]
      exact ⟨⟨[], by simp⟩, ⟨[], by simp⟩, ⟨[], by simp⟩, ⟨_, rfl⟩⟩

/-- Re-running the row tail against any extension of its own post-state
changes nothing: every lookup hits, the dedup guard sees the previously
inserted fact, and an invalid date fails again. -/
theorem afterCrop_settled (rn mn : String) (p : JSNum) (ed : Option Nat)
    (cid : Nat) (db1 db₂ : DB)
    (hx : DB.Ext (processRowAfterCrop rn mn p ed cid db1).2 db₂) :
    processRowAfterCrop rn mn p ed cid db₂ =
      (resettle (processRowAfterCrop rn mn p ed cid db1).1, db₂) := by
  have hmEx : DB.Ext (resolveMarket (resolveRegion db1 rn).2 mn
      (resolveRegion db1 rn).1).2 db₂ :=
    ext_trans (afterCrop_ext_fromMarket rn mn p ed cid db1) hx
  have hrEx : DB.Ext (resolveRegion db1 rn).2 db₂ :=
    ext_trans (resolveMarket_ext _ mn _) hmEx
  have hr := resolveRegion_stable db1 db₂ rn hrEx
  have hm := resolveMarket_stable (resolveRegion db1 rn).2 db₂ mn
    (resolveRegion db1 rn).1 hmEx
  simp only [processRowAfterCrop] at hx ⊢
  rw [hr]
  dsimp only
  rw [hm]
  dsimp only
  cases ed with
  | none => rfl
  | some d =>
    by_cases hdup : ((resolveMarket (resolveRegion db1 rn).2 mn
        (resolveRegion db1 rn).1).2.price_entries.find?
        (dupPred cid (resolveRegion db1 rn).1
          (resolveMarket (resolveRegion db1 rn).2 mn
            (resolveRegion db1 rn).1).1 d)).isSome = true
    · simp only [hdup, if_pos rfl] at hx ⊢
      obtain ⟨l, hl⟩ := hmEx.entries
      have : (db₂.price_entries.find?
          (dupPred cid (resolveRegion db1 rn).1
            (resolveMarket (resolveRegion db1 rn).2 mn
              (resolveRegion db1 rn).1).1 d)).isSome = true := by
        rw [hl]; exact find_isSome_append _ _ _ hdup
      simp only [this, if_pos rfl]
      rfl
    · simp only [Bool.not_eq_true] at hdup
      simp only [hdup, Bool.false_eq_true, if_false] at hx ⊢
      obtain ⟨l, hl⟩ := hx.entries
      have : (db₂.price_entries.find?
          (dupPred cid (resolveRegion db1 rn).1
            (resolveMarket (resolveRegion db1 rn).2 mn
              (resolveRegion db1 rn).1).1 d)).isSome = true := by
        rw [hl]
        dsimp only
        rw [List.append_assoc]
        exact find_append_cons_isSome _ _ _ _ (dupPred_self _ _ _ _ _ _)
      simp only [this, if_pos rfl]
      rfl

/-- Re-running one row against any extension of its own post-state leaves
the state unchanged; the row lands in `skipped` unless it was an error
row, which errors again. -/
theorem processRow_settled (now : Nat) (db db₂ : DB) (row : Row)
    (hx : DB.Ext (processRow now db row).2 db₂) :
    processRow now db₂ row = (resettle (processRow now db row).1, db₂) := by
  simp only [processRow] at hx ⊢
  by_cases hv : (cropNameOf (normalizeRow row) == "" ||
      regionNameOf (normalizeRow row) == "") = true
  · simp only [hv, if_pos rfl]
    rfl
  · simp only [Bool.not_eq_true] at hv
    simp only [hv, Bool.false_eq_true, if_false] at hx ⊢
    cases hp : priceValOf (normalizeRow row) with
    | none => rfl
    | some p =>
      rw [hp] at hx
      have hcEx : DB.Ext (resolveCrop db (cropNameOf (normalizeRow row))).2
          db₂ :=
        ext_trans (afterCrop_ext _ _ p _ _ _) hx
      rw [resolveCrop_stable db db₂ (cropNameOf (normalizeRow row)) hcEx]
      dsimp only
      exact afterCrop_settled _ _ p _ _ _ db₂ hx

/-- Re-running a whole batch against any extension of its own final state
inserts nothing, re-skips every inserted or skipped row, re-errors every
error row, and leaves the state untouched. -/
theorem processRows_resettle (now : Nat) (rows : List Row) :
    ∀ (db S : DB), DB.Ext (processRows now rows db).2 S →
      processRows now rows S =
        (⟨0,
          (processRows now rows db).1.inserted +
            (processRows now rows db).1.skipped,
          (processRows now rows db).1.errors,
          (processRows now rows db).1.total_rows⟩, S) := by
  induction rows with
  | nil => intro db S hx; rfl
  | cons r rest ih =>
    intro db S hx
    simp only [processRows] at hx ⊢
    have hstep : DB.Ext (processRow now db r).2 S :=
      ext_trans (processRows_ext now rest (processRow now db r).2) hx
    rw [processRow_settled now db S r hstep]
    dsimp only
    rw [ih (processRow now db r).2 S hx]
    dsimp only
    cases ho : (processRow now db r).1 <;>
      simp [bump, resettle, ho, BatchResult.mk.injEq] <;> omega

/-- Counter bookkeeping: each row bumps exactly one of the three counters
and the row total. -/
theorem processRows_counts (now : Nat) (rows : List Row) (db : DB) :
    (processRows now rows db).1.inserted +
        (processRows now rows db).1.skipped +
        (processRows now rows db).1.errors =
      (processRows now rows db).1.total_rows ∧
    (processRows now rows db).1.total_rows = rows.length := by
  induction rows generalizing db with
  | nil => exact ⟨rfl, rfl⟩
  | cons r rest ih =>
    simp only [processRows]
    obtain ⟨h1, h2⟩ := ih (processRow now db r).2
    cases ho : (processRow now db r).1 <;>
      simp [bump, List.length_cons] <;> omega

/-- Crop resolution appends only well-classified crop rows. -/
theorem resolveCrop_new_crops (db : DB) (n : String) :
    ∃ l, (resolveCrop db n).2.crops = db.crops ++ l ∧
      l.all cropOk = true := by
  unfold resolveCrop
  cases h : db.crops.find? (fun c => ciMatch c.name n) with
  | some c => exact ⟨[], by simp⟩
  | none =>
    refine ⟨[⟨db.nextId, n, categorizeCrop n,
      determineUnit (categorizeCrop n) n, true⟩], rfl, ?_⟩
    simp [cropOk]

/-- The row tail never touches the crop table. -/
theorem afterCrop_crops (rn mn : String) (p : JSNum) (ed : Option Nat)
    (cid : Nat) (db1 : DB) :
    (processRowAfterCrop rn mn p ed cid db1).2.crops = db1.crops := by
  simp only [processRowAfterCrop]
  have hrc := resolveRegion_crops db1 rn
  have hmc := resolveMarket_crops (resolveRegion db1 rn).2 mn
    (resolveRegion db1 rn).1
  cases ed with
  | none => rw [hmc, hrc]
  | some d =>
    by_cases hdup : ((resolveMarket (resolveRegion db1 rn).2 mn
        (resolveRegion db1 rn).1).2.price_entries.find?
        (dupPred cid (resolveRegion db1 rn).1
          (resolveMarket (resolveRegion db1 rn).2 mn
            (resolveRegion db1 rn).1).1 d)).isSome = true
    · simp [hdup, hmc, hrc]
    · simp only [Bool.not_eq_true] at hdup
      simp only [hdup, Bool.false_eq_true, if_false]
      rw [hmc, hrc]

/-- When the date is valid, the row tail appends at most one fact, stamped
with that date and the source constants, and never errors. -/
theorem afterCrop_entries_date (rn mn : String) (p : JSNum) (d cid : Nat)
    (db1 : DB) :
    ∃ l, (processRowAfterCrop rn mn p (some d) cid db1).2.price_entries =
        db1.price_entries ++ l ∧
      l.all (fun e => entryOk e && e.entry_date == d) = true ∧
      (processRowAfterCrop rn mn p (some d) cid db1).1 ≠ .err := by
  simp only [processRowAfterCrop]
  have hre := resolveRegion_entries db1 rn
  have hme := resolveMarket_entries (resolveRegion db1 rn).2 mn
    (resolveRegion db1 rn).1
  by_cases hdup : ((resolveMarket (resolveRegion db1 rn).2 mn
      (resolveRegion db1 rn).1).2.price_entries.find?
      (dupPred cid (resolveRegion db1 rn).1
        (resolveMarket (resolveRegion db1 rn).2 mn
          (resolveRegion db1 rn).1).1 d)).isSome = true
  · refine ⟨[], ?_, rfl, ?_⟩
    · rw [if_pos hdup]
      dsimp only
      rw [hme, hre, List.append_nil]
    · rw [if_pos hdup]
      intro hc
      cases hc
  · simp only [Bool.not_eq_true] at hdup
    simp only [hdup, Bool.false_eq_true, if_false]
    refine ⟨[⟨(resolveMarket (resolveRegion db1 rn).2 mn
        (resolveRegion db1 rn).1).2.nextId, cid, (resolveRegion db1 rn).1,
        (resolveMarket (resolveRegion db1 rn).2 mn
          (resolveRegion db1 rn).1).1, p, d, "kamis", true, "kg"⟩],
      ?_, ?_, ?_⟩
    · dsimp only
      rw [hme, hre]
    · simp [entryOk]
    · intro hc
      cases hc

/-- An invalid date makes the row tail error without touching the fact
table (the reference rows it resolved remain). -/
theorem afterCrop_invalid_date (rn mn : String) (p : JSNum) (cid : Nat)
    (db1 : DB) :
    (processRowAfterCrop rn mn p none cid db1).1 = .err ∧
      (processRowAfterCrop rn mn p none cid db1).2.price_entries =
        db1.price_entries := by
  constructor
  · rfl
  · simp only [processRowAfterCrop]
    rw [resolveMarket_entries, resolveRegion_entries]

/-- One row appends only well-stamped facts and well-classified crops. -/
theorem processRow_new (now : Nat) (db : DB) (row : Row) :
    (∃ l, (processRow now db row).2.price_entries = db.price_entries ++ l ∧
      l.all entryOk = true) ∧
    (∃ l, (processRow now db row).2.crops = db.crops ++ l ∧
      l.all cropOk = true) := by
  simp only [processRow]
  by_cases hv : (cropNameOf (normalizeRow row) == "" ||
      regionNameOf (normalizeRow row) == "") = true
  · simp only [hv, if_pos rfl]
    exact ⟨⟨[], by simp⟩, ⟨[], by simp⟩⟩
  · simp only [Bool.not_eq_true] at hv
    simp only [hv, Bool.false_eq_true, if_false]
    cases hp : priceValOf (normalizeRow row) with
    | none => exact ⟨⟨[], by simp⟩, ⟨[], by simp⟩⟩
    | some p =>
      constructor
      · cases hed : entryDateOf now (normalizeRow row) with
        | none =>
          obtain ⟨h1, h2⟩ := afterCrop_invalid_date
            (regionNameOf (normalizeRow row))
            (marketNameOf (normalizeRow row)) p
            (resolveCrop db (cropNameOf (normalizeRow row))).1
            (resolveCrop db (cropNameOf (normalizeRow row))).2
          refine ⟨[], ?_, rfl⟩
          rw [h2, resolveCrop_entries, List.append_nil]
        | some d =>
          obtain ⟨l, hl, hall, _⟩ := afterCrop_entries_date
            (regionNameOf (normalizeRow row))
            (marketNameOf (normalizeRow row)) p d
            (resolveCrop db (cropNameOf (normalizeRow row))).1
            (resolveCrop db (cropNameOf (normalizeRow row))).2
          refine ⟨l, ?_, ?_⟩
          · rw [hl, resolveCrop_entries]
          · refine (List.all_eq_true).mpr ?_
            intro e he
            have h2 := (List.all_eq_true).mp hall e he
            simp only [Bool.and_eq_true] at h2
            exact h2.1
      · obtain ⟨l, hl, hall⟩ := resolveCrop_new_crops db
          (cropNameOf (normalizeRow row))
        refine ⟨l, ?_, hall⟩
        rw [afterCrop_crops, hl]

/-- A batch appends only well-stamped facts and well-classified crops. -/
theorem processRows_new (now : Nat) (rows : List Row) (db : DB) :
    (∃ l, (processRows now rows db).2.price_entries =
        db.price_entries ++ l ∧ l.all entryOk = true) ∧
    (∃ l, (processRows now rows db).2.crops = db.crops ++ l ∧
      l.all cropOk = true) := by
  induction rows generalizing db with
  | nil => exact ⟨⟨[], by simp [processRows]⟩, ⟨[], by simp [processRows]⟩⟩
  | cons r rest ih =>
    simp only [processRows]
    obtain ⟨⟨l1, hl1, ha1⟩, ⟨m1, hm1, hb1⟩⟩ := processRow_new now db r
    obtain ⟨⟨l2, hl2, ha2⟩, ⟨m2, hm2, hb2⟩⟩ := ih (processRow now db r).2
    constructor
    · refine ⟨l1 ++ l2, ?_, ?_⟩
      · rw [hl2, hl1, List.append_assoc]
      · rw [List.all_append, ha1, ha2]; rfl
    · refine ⟨m1 ++ m2, ?_, ?_⟩
      · rw [hm2, hm1, List.append_assoc]
      · rw [List.all_append, hb1, hb2]; rfl

/-! ## Classifier equivalence -/

/-- The lookup-based first-match equals the fold form. -/
theorem firstMatchCat_eq_ruleFold
    (rules : List (List (List PatPart) × String)) (s : String) :
    firstMatchCat rules s = ruleFold rules s := by
  induction rules with
  | nil => rfl
  | cons r rs ih =>
    simp only [firstMatchCat, List.find?, ruleFold]
    cases h : regexTest r.1 s with
    | false =>
      simp only [h, Bool.false_eq_true, if_false]
      exact ih
    | true => simp [h]

/-- The source if-chain is exactly the fold over the ordered rule list. -/
theorem categorizeCrop_eq_ruleFold (s : String) :
    categorizeCrop s = ruleFold catRules (lowerStr s) := by
  simp only [categorizeCrop, catRules, ruleFold]

/-! ## Claim theorems -/

/-- C6: the commodity classifier evaluates its rules as an ordered list
against the lower-cased name, the first matching rule wins, and a name
matching no rule yields `general`; `classify("Free range chicken")` is
`poultry`, `classify("White Maize")` is `cereals`, `classify("Widget
XJ-9")` is `general`; a name matching both the earlier `oil` rule and a
later cash-crop keyword (such as the name Sunflower Oil) is assigned the
earlier category `processed_products`. -/
theorem c6_classifier_ordered_first_match :
    (∀ name, categorizeCrop name = firstMatchCat catRules (lowerStr name)) ∧
    categorizeCrop "Free range chicken" = "poultry" ∧
    categorizeCrop "White Maize" = "cereals" ∧
    categorizeCrop "Widget XJ-9" = "general" ∧
    regexTest reProcessed (lowerStr "Sunflower Oil") = true ∧
    regexTest reCashCrops (lowerStr "Sunflower Oil") = true ∧
    categorizeCrop "Sunflower Oil" = "processed_products" := by
  refine ⟨?_, rfl, rfl, rfl, rfl, rfl, rfl⟩
  intro name
  rw [firstMatchCat_eq_ruleFold, categorizeCrop_eq_ruleFold]

/-- C9: on every returned aggregate, `inserted + skipped + errors =
total_rows`, each row being accounted exactly once, and `total_rows` is
the number of parsed rows. -/
theorem c9_counts_partition (now : Nat) (rows : List Row) (db : DB) :
    (processRows now rows db).1.inserted +
        (processRows now rows db).1.skipped +
        (processRows now rows db).1.errors =
      (processRows now rows db).1.total_rows ∧
    (processRows now rows db).1.total_rows = rows.length :=
  processRows_counts now rows db

/-- C10: every fact row created by the batch carries `unit = "kg"`,
`source = "kamis"` and `is_verified = true`; the unit from `determineUnit`
is stored only on newly created crop rows (whose category and unit come
from the classifier), never on the fact row. -/
theorem c10_fact_row_constants (now : Nat) (rows : List Row) (db : DB) :
    ((processRows now rows db).2.price_entries.drop
      db.price_entries.length).all entryOk = true ∧
    ((processRows now rows db).2.crops.drop db.crops.length).all cropOk
      = true := by
  obtain ⟨⟨l, hl, ha⟩, ⟨m, hm, hb⟩⟩ := processRows_new now rows db
  constructor
  · rw [hl, List.drop_left]
    exact ha
  · rw [hm, List.drop_left]
    exact hb

/-- C4: re-ingesting the identical row sequence on the same current time
is idempotent: the second run inserts nothing, every row previously
inserted or skipped is skipped (so second-run skips are first-run inserts
plus first-run skips), error rows error again, and the state is
unchanged. -/
theorem c4_reingest_idempotent (now : Nat) (rows : List Row) (db : DB) :
    (processRows now rows (processRows now rows db).2).1.inserted = 0 ∧
    (processRows now rows (processRows now rows db).2).1.skipped =
      (processRows now rows db).1.inserted +
        (processRows now rows db).1.skipped ∧
    (processRows now rows (processRows now rows db).2).1.errors =
      (processRows now rows db).1.errors ∧
    (processRows now rows (processRows now rows db).2).2 =
      (processRows now rows db).2 := by
  rw [processRows_resettle now rows db (processRows now rows db).2
    (ext_refl _)]
  exact ⟨rfl, rfl, rfl, rfl⟩

/-- C5: on exactly the two §8 scenario rows (Maize, Central Kenya, prices
45.50 and 46.00, same date) in one batch, the first is inserted, the
second is skipped by the dedup guard seeing the first insert, and the
aggregate is inserted 1, skipped 1, errors 0, total 2; a single Maize
crop, a single region and a single fact at price 45.50 remain. -/
theorem c5_two_row_scenario :
    (processRows 0 [rowMaize1, rowMaize2] dbEmpty).1 = ⟨1, 1, 0, 2⟩ ∧
    (processRows 0 [rowMaize1, rowMaize2] dbEmpty).2.price_entries.map
      (fun e => e.price) = [⟨4550, 2⟩] ∧
    (processRows 0 [rowMaize1, rowMaize2] dbEmpty).2.crops.map
      (fun c => c.name) = ["Maize"] ∧
    (processRows 0 [rowMaize1, rowMaize2] dbEmpty).2.regions.map
      (fun r => r.name) = ["Central Kenya"] :=
  ⟨rfl, rfl, rfl, rfl⟩

/-- A one-element list whose element satisfies the predicate. -/
theorem find_singleton_pos {α : Type} (p : α → Bool) (a : α)
    (h : p a = true) : [a].find? p = some a := by
  simp [List.find?, h]

/-- C7: crop resolution is case-insensitive and creates only on first
sight: after `resolveCrop "Maize"` on a state with no crop named maize in
any casing, `resolveCrop "MAIZE"` returns the identical id, changes
nothing, and exactly one crop row named Maize exists afterward. -/
theorem c7_resolveCrop_case_insensitive (db : DB)
    (h : db.crops.find? (fun c => ciMatch c.name "Maize") = none) :
    (resolveCrop (resolveCrop db "Maize").2 "MAIZE").1 =
      (resolveCrop db "Maize").1 ∧
    (resolveCrop (resolveCrop db "Maize").2 "MAIZE").2 =
      (resolveCrop db "Maize").2 ∧
    ((resolveCrop (resolveCrop db "Maize").2 "MAIZE").2.crops.filter
      (fun c => c.name == "Maize")).length = 1 := by
  have h' : db.crops.find? (fun c => ciMatch c.name "MAIZE") = none := h
  have hfil : db.crops.filter (fun c => c.name == "Maize") = [] := by
    rw [List.filter_eq_nil_iff]
    intro c hc
    have hnp := List.find?_eq_none.mp h c hc
    intro hbeq
    apply hnp
    have hcn : c.name = "Maize" := eq_of_beq hbeq
    simp [ciMatch, hcn]
  unfold resolveCrop
  rw [h]
  dsimp only
  have hf2 : (db.crops ++ [(⟨db.nextId, "Maize", categorizeCrop "Maize",
      determineUnit (categorizeCrop "Maize") "Maize", true⟩ : Crop)]).find?
      (fun c => ciMatch c.name "MAIZE") =
      some (⟨db.nextId, "Maize", categorizeCrop "Maize",
        determineUnit (categorizeCrop "Maize") "Maize", true⟩ : Crop) := by
    rw [find_append_none _ _ _ h']
    exact find_singleton_pos _ _ (show ciMatch "Maize" "MAIZE" = true by decide)
  rw [hf2]
  refine ⟨rfl, rfl, ?_⟩
  rw [List.filter_append, hfil]
  simp

/-- Witness for C7 at the empty database. -/
theorem c7_resolveCrop_case_insensitive_witness :
    (resolveCrop (resolveCrop dbEmpty "Maize").2 "MAIZE").1 =
      (resolveCrop dbEmpty "Maize").1 ∧
    (resolveCrop (resolveCrop dbEmpty "Maize").2 "MAIZE").2 =
      (resolveCrop dbEmpty "Maize").2 ∧
    ((resolveCrop (resolveCrop dbEmpty "Maize").2 "MAIZE").2.crops.filter
      (fun c => c.name == "Maize")).length = 1 :=
  c7_resolveCrop_case_insensitive dbEmpty rfl

/-- C1 counterexample: a row with crop, region and a valid price but no
date field at all is not rejected — it is inserted, with its entry date
defaulted to the current time, refuting the claim that a missing date is
counted in `skipped` with no fact inserted. -/
theorem c1_missing_date_defaults_counterexample :
    (processRows 1704844800000 [rowNoDate] dbEmpty).1.inserted = 1 ∧
    (processRows 1704844800000 [rowNoDate] dbEmpty).1.skipped = 0 ∧
    (processRows 1704844800000 [rowNoDate] dbEmpty).2.price_entries.map
      (fun e => e.entry_date) = [1704844800000] :=
  ⟨rfl, rfl, rfl⟩

/-- C1 amended: a row whose date field is missing (or empty) has its date
defaulted to the current time and is never an error row — any fact it
inserts carries the current time as entry date; a row whose date string
does not parse to a valid date is not rejected by validation: when crop,
region and price are valid it is counted in `errors` (the invalid date
reaches the storage layer), not in `skipped`, and inserts no fact. -/
theorem c1_amended_date_handling :
    (∀ (now : Nat) (db : DB) (row : Row),
      dateFieldOf (normalizeRow row) = none →
        (processRow now db row).1 ≠ .err ∧
        ((processRow now db row).2.price_entries.drop
          db.price_entries.length).all (fun e => e.entry_date == now)
          = true) ∧
    (∀ (now : Nat) (db : DB) (row : Row) (s : String),
      dateFieldOf (normalizeRow row) = some s → jsDateParse s = none →
      cropNameOf (normalizeRow row) ≠ "" →
      regionNameOf (normalizeRow row) ≠ "" →
      priceValOf (normalizeRow row) ≠ none →
        (processRow now db row).1 = .err ∧
        (processRow now db row).2.price_entries = db.price_entries) := by
  constructor
  · intro now db row hd
    simp only [processRow]
    by_cases hv : (cropNameOf (normalizeRow row) == "" ||
        regionNameOf (normalizeRow row) == "") = true
    · simp only [hv, if_pos rfl]
      exact ⟨(by intro hc; cases hc), (by simp [List.drop_length])⟩
    · simp only [Bool.not_eq_true] at hv
      simp only [hv, Bool.false_eq_true, if_false]
      cases hp : priceValOf (normalizeRow row) with
      | none => exact ⟨(by intro hc; cases hc), (by simp [List.drop_length])⟩
      | some p =>
        have hed : entryDateOf now (normalizeRow row) = some now := by
          simp [entryDateOf, hd]
        rw [hed]
        obtain ⟨l, hl, hall, hne⟩ := afterCrop_entries_date
          (regionNameOf (normalizeRow row)) (marketNameOf (normalizeRow row))
          p now (resolveCrop db (cropNameOf (normalizeRow row))).1
          (resolveCrop db (cropNameOf (normalizeRow row))).2
        refine ⟨hne, ?_⟩
        rw [hl, resolveCrop_entries, List.drop_left]
        refine (List.all_eq_true).mpr ?_
        intro e he
        have h2 := (List.all_eq_true).mp hall e he
        simp only [Bool.and_eq_true] at h2
        exact h2.2
  · intro now db row s hd hparse hc hr hpn
    simp only [processRow]
    have hcb : (cropNameOf (normalizeRow row) == "") = false :=
      beq_eq_false_iff_ne.mpr hc
    have hrb : (regionNameOf (normalizeRow row) == "") = false :=
      beq_eq_false_iff_ne.mpr hr
    simp only [hcb, hrb, Bool.or_false, Bool.false_eq_true, if_false]
    obtain ⟨p, hp⟩ := Option.ne_none_iff_exists'.mp hpn
    rw [hp]
    have hed : entryDateOf now (normalizeRow row) = none := by
      simp [entryDateOf, hd, hparse]
    rw [hed]
    obtain ⟨h1, h2⟩ := afterCrop_invalid_date
      (regionNameOf (normalizeRow row)) (marketNameOf (normalizeRow row)) p
      (resolveCrop db (cropNameOf (normalizeRow row))).1
      (resolveCrop db (cropNameOf (normalizeRow row))).2
    exact ⟨h1, by rw [h2, resolveCrop_entries]⟩

/-- Witness for C1 amended: the missing-date row is not an error row and
its fact carries the supplied current time; the unparseable-date row is
an error row and inserts nothing. -/
theorem c1_amended_date_handling_witness :
    ((processRow 1704844800000 dbEmpty rowNoDate).1 ≠ .err ∧
      ((processRow 1704844800000 dbEmpty rowNoDate).2.price_entries.drop
        dbEmpty.price_entries.length).all
        (fun e => e.entry_date == 1704844800000) = true) ∧
    ((processRow 0 dbEmpty rowBadDate).1 = .err ∧
      (processRow 0 dbEmpty rowBadDate).2.price_entries =
        dbEmpty.price_entries) :=
  ⟨c1_amended_date_handling.1 1704844800000 dbEmpty rowNoDate rfl,
   c1_amended_date_handling.2 0 dbEmpty rowBadDate "not-a-date" rfl rfl
     (by decide) (by decide) (by decide)⟩

/-- C2 counterexample: a row whose price is `"0"` — numeric but not
strictly greater than zero — is not skipped: it passes the `isNaN`-only
validation and a fact with price 0 is inserted, refuting the claim that
non-positive prices are counted in `skipped` and never inserted. -/
theorem c2_nonpositive_price_inserted_counterexample :
    (processRows 0 [rowPriceZero] dbEmpty).1.inserted = 1 ∧
    (processRows 0 [rowPriceZero] dbEmpty).1.skipped = 0 ∧
    (processRows 0 [rowPriceZero] dbEmpty).2.price_entries.map
      (fun e => e.price) = [⟨0, 0⟩] :=
  ⟨rfl, rfl, rfl⟩

/-- C2 amended: a row missing the crop name or the region name, or whose
extracted price parses to NaN, is counted in `skipped` — never in
`errors`, never in `inserted` — and leaves the state untouched; the
source checks only `isNaN`, so no positivity or finiteness condition is
enforced. -/
theorem c2_amended_validation_skips (now : Nat) (db : DB) (row : Row)
    (h : cropNameOf (normalizeRow row) = "" ∨
      regionNameOf (normalizeRow row) = "" ∨
      priceValOf (normalizeRow row) = none) :
    processRow now db row = (.skip, db) ∧
    processRows now [row] db = (⟨0, 1, 0, 1⟩, db) := by
  have h1 : processRow now db row = (.skip, db) := by
    simp only [processRow]
    by_cases hv : (cropNameOf (normalizeRow row) == "" ||
        regionNameOf (normalizeRow row) == "") = true
    · simp [hv]
    · simp only [Bool.not_eq_true] at hv
      simp only [hv, Bool.false_eq_true, if_false]
      rcases h with h | h | h
      · exfalso
        have := Bool.or_eq_false_iff.mp hv
        rw [beq_eq_false_iff_ne] at this
        exact this.1 h
      · exfalso
        have := Bool.or_eq_false_iff.mp hv
        have h2 := this.2
        rw [beq_eq_false_iff_ne] at h2
        exact h2 h
      · rw [h]
  refine ⟨h1, ?_⟩
  simp [processRows, h1, bump]

/-- Witness for C2 amended at a concrete row missing its crop name. -/
theorem c2_amended_validation_skips_witness :
    processRow 0 dbEmpty rowNoCrop = (.skip, dbEmpty) ∧
    processRows 0 [rowNoCrop] dbEmpty = (⟨0, 1, 0, 1⟩, dbEmpty) :=
  c2_amended_validation_skips 0 dbEmpty rowNoCrop (Or.inl rfl)

/-- C3 counterexample: a transaction fault whose raised error has the
empty message finalizes the sync run as failed, but the `|| null`
coercion stores a null error_message — refuting the claim that every
in-transaction error yields a non-null error_message. The database is
still untouched and no aggregate is returned. -/
theorem c3_empty_message_null_counterexample :
    (syncKamisData (.txFail "") 0 sysEmpty).1 = .error "" ∧
    (syncKamisData (.txFail "") 0 sysEmpty).2.db = dbEmpty ∧
    (syncKamisData (.txFail "") 0 sysEmpty).2.sync_logs.map
      (fun l => (l.status, l.error_message)) = [("failed", none)] :=
  ⟨rfl, rfl, rfl⟩

/-- C3 amended: when an error with message `m` is raised inside the batch
transaction, no fact rows are committed (the tables are exactly the
caller's), the run's sync log is finalized with status failed and
error_message `m` whenever `m` is non-empty (the `|| null` coercion
stores null for an empty message), and no aggregate is returned — the
call rethrows the error. -/
theorem c3_amended_tx_failure_rollback (m : String) (now : Nat)
    (st : SysState) (hm : m ≠ "") :
    (syncKamisData (.txFail m) now st).1 = .error m ∧
    (syncKamisData (.txFail m) now st).2.db = st.db ∧
    (syncKamisData (.txFail m) now st).2.sync_logs.getLast? =
      some ⟨st.nextLogId, "failed", 0, 0, 0, some m, now, some now⟩ := by
  have hb : (m == "") = false := beq_eq_false_iff_ne.mpr hm
  refine ⟨rfl, rfl, ?_⟩
  simp [syncKamisData, startSyncLog, updateSyncLog, jsStrOrNull, hb,
    List.getLast?_concat]

/-- Witness for C3 amended at a concrete fault message. -/
theorem c3_amended_tx_failure_rollback_witness :
    (syncKamisData (.txFail "Transaction API error") 0 sysEmpty).1 =
      .error "Transaction API error" ∧
    (syncKamisData (.txFail "Transaction API error") 0 sysEmpty).2.db =
      sysEmpty.db ∧
    ((syncKamisData (.txFail "Transaction API error") 0
      sysEmpty).2).sync_logs.getLast? =
      some ⟨sysEmpty.nextLogId, "failed", 0, 0, 0,
        some "Transaction API error", 0, some 0⟩ :=
  c3_amended_tx_failure_rollback "Transaction API error" 0 sysEmpty
    (by decide)

/-- C8 counterexample: a row whose crop create hits a unique-constraint
violation (a concurrent batch created the name between lookup and create)
does not complete normally: the exception reaches the per-row catch and
the row is counted in `errors`, refuting the claim that the resolver
re-fetches and the row completes. -/
theorem c8_unique_violation_errors_counterexample :
    processRowCropRace 0 dbEmpty rowMaize1 = (.err, dbEmpty) ∧
    bump (processRowCropRace 0 dbEmpty rowMaize1).1 ⟨0, 0, 0, 0⟩ =
      ⟨0, 0, 1, 1⟩ :=
  ⟨rfl, rfl⟩

/-- C8 amended: the source has no handling for a unique-constraint
violation on crop create: for every otherwise valid row whose crop lookup
misses and whose create raises, the exception propagates to the per-row
catch, the row is counted in `errors`, nothing is re-fetched, and no row
of any table is written. -/
theorem c8_amended_unique_violation_errors (now : Nat) (db : DB)
    (row : Row)
    (hmiss : db.crops.find?
      (fun c => ciMatch c.name (cropNameOf (normalizeRow row))) = none)
    (hc : cropNameOf (normalizeRow row) ≠ "")
    (hr : regionNameOf (normalizeRow row) ≠ "")
    (hp : priceValOf (normalizeRow row) ≠ none) :
    processRowCropRace now db row = (.err, db) := by
  simp only [processRowCropRace]
  have hcb : (cropNameOf (normalizeRow row) == "") = false :=
    beq_eq_false_iff_ne.mpr hc
  have hrb : (regionNameOf (normalizeRow row) == "") = false :=
    beq_eq_false_iff_ne.mpr hr
  simp only [hcb, hrb, Bool.or_false, Bool.false_eq_true, if_false]
  obtain ⟨p, hp'⟩ := Option.ne_none_iff_exists'.mp hp
  rw [hp']
  simp only [resolveCropRace, hmiss]

/-- Witness for C8 amended at the empty database. -/
theorem c8_amended_unique_violation_errors_witness :
    processRowCropRace 7 dbEmpty rowMaize2 = (.err, dbEmpty) :=
  c8_amended_unique_violation_errors 7 dbEmpty rowMaize2 rfl (by decide)
    (by decide) (by decide)
